import Mathlib

/-!
Shallow embedding of `src/core/view/finisher.go` (package `view` of
qioalice/devola): the post-action completion engine `Finisher`.

Modelling conventions:
- Go nilable values (`unsafe.Pointer` payloads, `error` values) become
  `Option` values, `none` standing for nil.
- The untyped callback pointers, cast at call time to one of two function
  shapes, become a `Callback` record providing both shapes; a callback
  invocation that panics is modelled by the shape returning `some p`
  (the non-nil recovered payload), a normal return by `none`.
- The process-wide completor globals set by `InitCompletors` are passed
  to `Call`/`trFinish` as explicit arguments `sess`/`chat`.
- Execution is instrumented with an event trace recording every callback
  invocation and every completor invocation, together with the arguments
  passed; a panic escaping the run (no panic guard) is the `escaped`
  component of the result, and processing stops at that point exactly as
  a propagating Go panic aborts `Call`.
-/

set_option autoImplicit false

namespace Devola

/-- Modelled from the spec: the flag constants of the `finisherFlag` type.
The type itself is declared outside the given sources (only its callers
appear in `src/core/view/finisher.go`); the spec describes the flags as
"a set of independent boolean options, combinable". -/
inductive finisherFlagBit where
  | CEnablePanicGuard
  | CFinishSessionTransaction
  | CFinishChatTransaction
  | CIsSessionTransactionError
  | CIsChatTransactionError
deriving DecidableEq, Repr

/-- Modelled from the spec: a `finisherFlag` value is a combinable set of
the five independent boolean options above, here one boolean per option. -/
structure finisherFlag where
  enablePanicGuard : Bool
  finishSessionTransaction : Bool
  finishChatTransaction : Bool
  isSessionTransactionError : Bool
  isChatTransactionError : Bool
deriving DecidableEq, Repr

/-- Modelled from the spec: membership test of a flag bit. -/
def finisherFlag.TestFlag (fl : finisherFlag) : finisherFlagBit → Bool
  | .CEnablePanicGuard => fl.enablePanicGuard
  | .CFinishSessionTransaction => fl.finishSessionTransaction
  | .CFinishChatTransaction => fl.finishChatTransaction
  | .CIsSessionTransactionError => fl.isSessionTransactionError
  | .CIsChatTransactionError => fl.isChatTransactionError

/-- Modelled from the spec: adding a flag bit to the set. -/
def finisherFlag.SetFlag (fl : finisherFlag) : finisherFlagBit → finisherFlag
  | .CEnablePanicGuard => { fl with enablePanicGuard := true }
  | .CFinishSessionTransaction => { fl with finishSessionTransaction := true }
  | .CFinishChatTransaction => { fl with finishChatTransaction := true }
  | .CIsSessionTransactionError => { fl with isSessionTransactionError := true }
  | .CIsChatTransactionError => { fl with isChatTransactionError := true }

/-- One registered callback. In the source a callback is an untyped pointer
cast at call time to `func(unsafe.Pointer, unsafe.Pointer)` (success shape)
or `func(unsafe.Pointer, error)` (error shape); we model the behaviour of
the pointed-to code under each cast. A result `some p` means the call
panics with (non-nil) payload `p`; `none` means it returns normally.
Type parameters: `γ` context pointers, `α` sent-message payloads,
`ε` error values, `π` panic payloads. -/
structure Callback (γ α ε π : Type) where
  onMsg : γ → α → Option π
  onErr : γ → ε → Option π

/-- Trace event: one callback or completor invocation, with the arguments
the engine passed to it. -/
inductive Event (γ α ε π : Type) where
  | cbMsg (cb : Callback γ α ε π) (ctx : γ) (msg : α)
  | cbErr (cb : Callback γ α ε π) (ctx : γ) (err : ε)
  | trSession (ctx : γ)
  | trChat (ctx : γ)

/-- Whether the event is a completor (transaction-finishing) invocation,
as opposed to a callback invocation. -/
def Event.isTr {γ α ε π : Type} : Event γ α ε π → Bool
  | .trSession _ => true
  | .trChat _ => true
  | _ => false

/-- The context argument the engine passed in this event. -/
def Event.ctxOf {γ α ε π : Type} : Event γ α ε π → γ
  | .cbMsg _ c _ => c
  | .cbErr _ c _ => c
  | .trSession c => c
  | .trChat c => c

/-- The callback invoked in this event, if it is a callback event. -/
def Event.cbOf {γ α ε π : Type} : Event γ α ε π → Option (Callback γ α ε π)
  | .cbMsg cb _ _ => some cb
  | .cbErr cb _ _ => some cb
  | _ => none

/-- The `Finisher` struct. Field names follow the source; `Err` is the
single recorded transaction error slot. -/
structure Finisher (γ α ε π : Type) where
  Flags : finisherFlag
  originalCtx : γ
  passCallbacksCtx : γ
  sentMsg : Option α
  sentErr : Option ε
  callbacks : List (Callback γ α ε π)
  RecoveredPanics : List π
  Err : Option ε

variable {γ α ε π : Type}

/-- Result of running (part of) a finisher: the updated struct, the trace
of invocations, and the panic escaping the run, if any. -/
structure RunResult (γ α ε π : Type) where
  fin : Finisher γ α ε π
  trace : List (Event γ α ε π)
  escaped : Option π

/-- `Finisher.invoke`: calls `cb`, passing `passCallbacksCtx` and the sent
message or the sending error (whichever is non-nil, message checked first,
nothing called when both are nil). When `CEnablePanicGuard` is set the
call is wrapped by a deferred `protectFromPanic`, which appends a
recovered panic payload to `RecoveredPanics`; without the guard a panic
escapes. -/
def Finisher.invoke (f : Finisher γ α ε π) (cb : Callback γ α ε π) :
    RunResult γ α ε π :=
  match f.sentMsg with
  | some m =>
    match cb.onMsg f.passCallbacksCtx m with
    | none => ⟨f, [.cbMsg cb f.passCallbacksCtx m], none⟩
    | some p =>
      if f.Flags.TestFlag .CEnablePanicGuard then
        ⟨{ f with RecoveredPanics := f.RecoveredPanics ++ [p] },
         [.cbMsg cb f.passCallbacksCtx m], none⟩
      else
        ⟨f, [.cbMsg cb f.passCallbacksCtx m], some p⟩
  | none =>
    match f.sentErr with
    | some e =>
      match cb.onErr f.passCallbacksCtx e with
      | none => ⟨f, [.cbErr cb f.passCallbacksCtx e], none⟩
      | some p =>
        if f.Flags.TestFlag .CEnablePanicGuard then
          ⟨{ f with RecoveredPanics := f.RecoveredPanics ++ [p] },
           [.cbErr cb f.passCallbacksCtx e], none⟩
        else
          ⟨f, [.cbErr cb f.passCallbacksCtx e], some p⟩
    | none => ⟨f, [], none⟩

/-- The chat-transaction half of `Finisher.trFinish` (the part after the
session-transaction block falls through). -/
def Finisher.trChatPart (chat : γ → Option ε) (f : Finisher γ α ε π) :
    Finisher γ α ε π × List (Event γ α ε π) :=
  if f.Flags.TestFlag .CFinishChatTransaction then
    match chat f.originalCtx with
    | some err =>
      ({ f with Err := some err,
                Flags := f.Flags.SetFlag .CIsChatTransactionError },
       [.trChat f.originalCtx])
    | none => (f, [.trChat f.originalCtx])
  else (f, [])

/-- `Finisher.trFinish`: finish the session transaction if requested,
stopping on its error (recording `Err` and `CIsSessionTransactionError`);
otherwise finish the chat transaction if requested, recording its error
under `CIsChatTransactionError`. `sess`/`chat` stand for the process-wide
completors registered via `InitCompletors`; both are called on
`originalCtx`. -/
def Finisher.trFinish (sess chat : γ → Option ε) (f : Finisher γ α ε π) :
    Finisher γ α ε π × List (Event γ α ε π) :=
  if f.Flags.TestFlag .CFinishSessionTransaction then
    match sess f.originalCtx with
    | some err =>
      ({ f with Err := some err,
                Flags := f.Flags.SetFlag .CIsSessionTransactionError },
       [.trSession f.originalCtx])
    | none =>
      let r := f.trChatPart chat
      (r.1, .trSession f.originalCtx :: r.2)
  else f.trChatPart chat

/-- The callback loop of `Finisher.Call` (`for _, cb := range f.callbacks`),
stopping when a panic escapes an unguarded invocation. -/
def Finisher.callLoop (f : Finisher γ α ε π) :
    List (Callback γ α ε π) → RunResult γ α ε π
  | [] => ⟨f, [], none⟩
  | cb :: rest =>
    let r := f.invoke cb
    match r.escaped with
    | some p => ⟨r.fin, r.trace, some p⟩
    | none =>
      let r2 := r.fin.callLoop rest
      ⟨r2.fin, r.trace ++ r2.trace, r2.escaped⟩

/-- `Finisher.Call`: invoke every saved callback in order, then
`trFinish`. A panic escaping an unguarded callback aborts the run before
the remaining callbacks and before `trFinish`, exactly as a propagating
Go panic would. -/
def Finisher.Call (sess chat : γ → Option ε) (f : Finisher γ α ε π) :
    RunResult γ α ε π :=
  let r := f.callLoop f.callbacks
  match r.escaped with
  | some p => ⟨r.fin, r.trace, some p⟩
  | none =>
    let t := r.fin.trFinish sess chat
    ⟨t.1, r.trace ++ t.2, none⟩

/-- `Finisher.TrSessionError`: the recorded error, provided
`CIsSessionTransactionError` is set and the slot is non-nil. -/
def Finisher.TrSessionError (f : Finisher γ α ε π) : Option ε :=
  if f.Flags.TestFlag .CIsSessionTransactionError && f.Err.isSome then f.Err
  else none

/-- `Finisher.TrChatError`: the recorded error, provided
`CIsChatTransactionError` is set and the slot is non-nil. -/
def Finisher.TrChatError (f : Finisher γ α ε π) : Option ε :=
  if f.Flags.TestFlag .CIsChatTransactionError && f.Err.isSome then f.Err
  else none

/-- `MakeFinisher`: the constructor. The struct literal in the source sets
only `Flags`, `originalCtx` and `passCallbacksCtx`; in particular the
`cbs` parameter is NOT stored — `callbacks` keeps its zero value (empty),
as do the outcome fields, `RecoveredPanics` and `Err`. -/
def MakeFinisher (flags : finisherFlag) (cbs : List (Callback γ α ε π))
    (originalCtx pass2callbacksCtx : γ) : Finisher γ α ε π :=
  { Flags := flags
    originalCtx := originalCtx
    passCallbacksCtx := pass2callbacksCtx
    sentMsg := none
    sentErr := none
    callbacks := []
    RecoveredPanics := []
    Err := none }

/-- `Finisher.MakeSuccess`: sets the sent message, clears the error. -/
def Finisher.MakeSuccess (f : Finisher γ α ε π) (sentMsg : Option α) :
    Finisher γ α ε π :=
  { f with sentMsg := sentMsg, sentErr := none }

/-- `Finisher.MakeError`: sets the sending error, clears the message. -/
def Finisher.MakeError (f : Finisher γ α ε π) (err : Option ε) :
    Finisher γ α ε π :=
  { f with sentMsg := none, sentErr := err }

/-- The panic produced by invoking `cb` on `f`'s outcome (`none` when the
invocation returns normally or nothing is invoked at all). -/
def Finisher.cbPanic (f : Finisher γ α ε π) (cb : Callback γ α ε π) :
    Option π :=
  match f.sentMsg with
  | some m => cb.onMsg f.passCallbacksCtx m
  | none =>
    match f.sentErr with
    | some e => cb.onErr f.passCallbacksCtx e
    | none => none

/-- The trace a single invocation of `cb` on `f` produces. -/
def Finisher.invokeEvent (f : Finisher γ α ε π) (cb : Callback γ α ε π) :
    List (Event γ α ε π) :=
  match f.sentMsg with
  | some m => [.cbMsg cb f.passCallbacksCtx m]
  | none =>
    match f.sentErr with
    | some e => [.cbErr cb f.passCallbacksCtx e]
    | none => []

/-- The trace the whole callback loop produces when nothing escapes. -/
def Finisher.invokeEvents (f : Finisher γ α ε π) :
    List (Callback γ α ε π) → List (Event γ α ε π)
  | [] => []
  | cb :: rest => f.invokeEvent cb ++ f.invokeEvents rest

/-! ### Concrete fixtures, used to evaluate the embedding on closed runs -/

/-- A callback that returns normally under both shapes. -/
def cbNone : Callback Nat Nat Nat Nat := ⟨fun _ _ => none, fun _ _ => none⟩

/-- A callback that panics with payload `99` under the success shape. -/
def cbBoom : Callback Nat Nat Nat Nat := ⟨fun _ _ => some 99, fun _ _ => none⟩

/-- A completor that succeeds. -/
def trNone : Nat → Option Nat := fun _ => none

/-- A completor that fails with error `42`. -/
def trFail42 : Nat → Option Nat := fun _ => some 42

/-- A completor that fails with error `43`. -/
def trFail43 : Nat → Option Nat := fun _ => some 43

/-- Flags: none set. -/
def wFlags0 : finisherFlag := ⟨false, false, false, false, false⟩

/-- Flags: `CEnablePanicGuard` only. -/
def wFlagsGuard : finisherFlag := ⟨true, false, false, false, false⟩

/-- Flags: `CFinishSessionTransaction` only. -/
def wFlagsSess : finisherFlag := ⟨false, true, false, false, false⟩

/-- Flags: `CFinishChatTransaction` only. -/
def wFlagsChat : finisherFlag := ⟨false, false, true, false, false⟩

/-- A success finisher with the session stage requested. -/
def fC2w : Finisher Nat Nat Nat Nat :=
  ⟨wFlagsSess, 10, 11, some 5, none, [cbNone], [], none⟩

/-- A success finisher with the chat stage requested. -/
def fC3w : Finisher Nat Nat Nat Nat :=
  ⟨wFlagsChat, 10, 11, some 5, none, [cbNone], [], none⟩

/-- A guarded success finisher whose middle callback panics. -/
def fC4w : Finisher Nat Nat Nat Nat :=
  ⟨wFlagsGuard, 10, 11, some 5, none, [cbNone, cbBoom, cbNone], [], none⟩

/-- An unguarded success finisher whose middle callback panics. -/
def fC5w : Finisher Nat Nat Nat Nat :=
  ⟨wFlags0, 10, 11, some 5, none, [cbNone, cbBoom, cbNone], [], none⟩

/-- A finisher with no outcome marked yet. -/
def fC6w : Finisher Nat Nat Nat Nat :=
  ⟨wFlags0, 10, 11, none, none, [cbNone], [], none⟩

/-- A plain success finisher with one callback. -/
def fC8w : Finisher Nat Nat Nat Nat :=
  ⟨wFlags0, 10, 11, some 5, none, [cbNone], [], none⟩

/-- A finisher with both outcome fields nil and the session stage
requested. -/
def fC9w : Finisher Nat Nat Nat Nat :=
  ⟨wFlagsSess, 10, 11, none, none, [cbNone], [], none⟩

/-! ### Basic lemmas about the embedding -/

theorem cbPanic_setRP (f : Finisher γ α ε π) (l : List π) :
    Finisher.cbPanic { f with RecoveredPanics := l } = f.cbPanic :=
  funext fun _ => rfl

theorem invokeEvent_setRP (f : Finisher γ α ε π) (l : List π) :
    Finisher.invokeEvent { f with RecoveredPanics := l } = f.invokeEvent :=
  funext fun _ => rfl

theorem invokeEvents_setRP (f : Finisher γ α ε π) (l : List π) :
    ∀ cbs, Finisher.invokeEvents { f with RecoveredPanics := l } cbs =
      f.invokeEvents cbs := by
  intro cbs
  induction cbs with
  | nil => rfl
  | cons cb rest ih =>
    rw [Finisher.invokeEvents, Finisher.invokeEvents, ih, invokeEvent_setRP]

/-- One invocation, written in closed form. -/
theorem invoke_eq (f : Finisher γ α ε π) (cb : Callback γ α ε π) :
    f.invoke cb =
      ⟨{ f with RecoveredPanics := f.RecoveredPanics ++
          (if f.Flags.TestFlag .CEnablePanicGuard then (f.cbPanic cb).toList
           else []) },
       f.invokeEvent cb,
       if f.Flags.TestFlag .CEnablePanicGuard then none else f.cbPanic cb⟩ := by
  obtain ⟨fl, o, pc, sm, se, cbl, rp, er⟩ := f
  cases sm with
  | some m =>
    cases hp : cb.onMsg pc m <;>
      cases hg : fl.TestFlag .CEnablePanicGuard <;>
        simp [Finisher.invoke, Finisher.cbPanic, Finisher.invokeEvent, hp, hg]
  | none =>
    cases se with
    | some e =>
      cases hp : cb.onErr pc e <;>
        cases hg : fl.TestFlag .CEnablePanicGuard <;>
          simp [Finisher.invoke, Finisher.cbPanic, Finisher.invokeEvent, hp, hg]
    | none =>
      cases hg : fl.TestFlag .CEnablePanicGuard <;>
        simp [Finisher.invoke, Finisher.cbPanic, Finisher.invokeEvent, hg]

/-- With the panic guard on, an invocation never lets a panic escape and
appends the recovered payload (if any). -/
theorem invoke_guard (f : Finisher γ α ε π) (cb : Callback γ α ε π)
    (hg : f.Flags.TestFlag .CEnablePanicGuard = true) :
    f.invoke cb =
      ⟨{ f with RecoveredPanics := f.RecoveredPanics ++ (f.cbPanic cb).toList },
       f.invokeEvent cb, none⟩ := by
  rw [invoke_eq, hg]
  simp

/-- Without the panic guard, an invocation leaves the struct untouched and
a panic (if any) escapes. -/
theorem invoke_noguard (f : Finisher γ α ε π) (cb : Callback γ α ε π)
    (hg : f.Flags.TestFlag .CEnablePanicGuard = false) :
    f.invoke cb = ⟨f, f.invokeEvent cb, f.cbPanic cb⟩ := by
  rw [invoke_eq, hg]
  simp

/-- The callback loop only ever appends to `RecoveredPanics`; every other
field survives, and its trace is made of callback events only, each of
them one of `f`'s per-callback traces. -/
theorem callLoop_spec (cbs : List (Callback γ α ε π)) :
    ∀ f : Finisher γ α ε π,
      (∃ l, (f.callLoop cbs).fin = { f with RecoveredPanics := l }) ∧
      (∀ ev ∈ (f.callLoop cbs).trace, ∃ cb ∈ cbs, ev ∈ f.invokeEvent cb) := by
  induction cbs with
  | nil => exact fun f => ⟨⟨f.RecoveredPanics, rfl⟩, by simp [Finisher.callLoop]⟩
  | cons cb rest ih =>
    intro f
    rw [Finisher.callLoop, invoke_eq]
    cases hg : f.Flags.TestFlag .CEnablePanicGuard with
    | false =>
      simp only [hg, if_false]
      cases hp : f.cbPanic cb with
      | some p =>
        refine ⟨⟨f.RecoveredPanics ++ [], rfl⟩, ?_⟩
        intro ev hev
        exact ⟨cb, List.mem_cons_self _ _, hev⟩
      | none =>
        obtain ⟨⟨l, hfin⟩, htr⟩ :=
          ih { f with RecoveredPanics := f.RecoveredPanics ++ [] }
        refine ⟨⟨l, hfin⟩, ?_⟩
        intro ev hev
        rcases List.mem_append.1 hev with h | h
        · exact ⟨cb, List.mem_cons_self _ _, h⟩
        · obtain ⟨cb', hcb', hev'⟩ := htr ev h
          exact ⟨cb', List.mem_cons_of_mem _ hcb',
            by simpa [invokeEvent_setRP] using hev'⟩
    | true =>
      simp only [hg, if_true]
      obtain ⟨⟨l, hfin⟩, htr⟩ :=
        ih { f with RecoveredPanics := f.RecoveredPanics ++ (f.cbPanic cb).toList }
      refine ⟨⟨l, hfin⟩, ?_⟩
      intro ev hev
      rcases List.mem_append.1 hev with h | h
      · exact ⟨cb, List.mem_cons_self _ _, h⟩
      · obtain ⟨cb', hcb', hev'⟩ := htr ev h
        exact ⟨cb', List.mem_cons_of_mem _ hcb',
          by simpa [invokeEvent_setRP] using hev'⟩

/-- With the guard on, the loop runs to the end: every callback is invoked
in list order and the recovered payloads accumulate in order. -/
theorem callLoop_guard (cbs : List (Callback γ α ε π)) :
    ∀ f : Finisher γ α ε π, f.Flags.TestFlag .CEnablePanicGuard = true →
      f.callLoop cbs =
        ⟨{ f with RecoveredPanics :=
             f.RecoveredPanics ++ cbs.filterMap f.cbPanic },
         f.invokeEvents cbs, none⟩ := by
  induction cbs with
  | nil => intro f _; simp [Finisher.callLoop, Finisher.invokeEvents]
  | cons cb rest ih =>
    intro f hg
    rw [Finisher.callLoop, invoke_guard f cb hg]
    have hg' : (Finisher.Flags { f with RecoveredPanics :=
        f.RecoveredPanics ++ (f.cbPanic cb).toList }).TestFlag
        .CEnablePanicGuard = true := hg
    rw [ih _ hg']
    simp only [cbPanic_setRP, invokeEvent_setRP, invokeEvents_setRP,
      Finisher.invokeEvents]
    cases hp : f.cbPanic cb <;>
      simp [List.filterMap_cons, hp, List.append_assoc]

/-- A run of callbacks none of which panics leaves the struct untouched
(whatever the guard flag is) and nothing escapes. -/
theorem callLoop_clean (cbs : List (Callback γ α ε π)) :
    ∀ f : Finisher γ α ε π, (∀ cb ∈ cbs, f.cbPanic cb = none) →
      f.callLoop cbs = ⟨f, f.invokeEvents cbs, none⟩ := by
  induction cbs with
  | nil => intro f _; simp [Finisher.callLoop, Finisher.invokeEvents]
  | cons cb rest ih =>
    intro f h
    have hcb : f.cbPanic cb = none := h cb (List.mem_cons_self _ _)
    rw [Finisher.callLoop, invoke_eq, hcb]
    have hfix : ({ f with RecoveredPanics := f.RecoveredPanics ++
        (if f.Flags.TestFlag .CEnablePanicGuard then Option.toList none
         else []) } : Finisher γ α ε π) = f := by
      cases hg : f.Flags.TestFlag .CEnablePanicGuard <;> simp
    rw [hfix]
    cases hg : f.Flags.TestFlag .CEnablePanicGuard with
    | false =>
      simp only [hg, if_false]
      rw [ih f (fun c hc => h c (List.mem_cons_of_mem _ hc))]
      simp [Finisher.invokeEvents]
    | true =>
      simp only [hg, if_true]
      rw [ih f (fun c hc => h c (List.mem_cons_of_mem _ hc))]
      simp [Finisher.invokeEvents]

/-- Without the guard, the first panicking callback aborts the loop: the
callbacks before it and it itself are invoked, nothing after it, the
struct is untouched, and the panic escapes. -/
theorem callLoop_escape (pre : List (Callback γ α ε π)) :
    ∀ (f : Finisher γ α ε π) (cb : Callback γ α ε π)
      (post : List (Callback γ α ε π)) (p : π),
      f.Flags.TestFlag .CEnablePanicGuard = false →
      (∀ c ∈ pre, f.cbPanic c = none) → f.cbPanic cb = some p →
      f.callLoop (pre ++ cb :: post) =
        ⟨f, f.invokeEvents pre ++ f.invokeEvent cb, some p⟩ := by
  induction pre with
  | nil =>
    intro f cb post p hg _ hp
    rw [List.nil_append, Finisher.callLoop, invoke_noguard f cb hg, hp]
    simp [Finisher.invokeEvents]
  | cons c rest ih =>
    intro f cb post p hg hpre hp
    have hc : f.cbPanic c = none := hpre c (List.mem_cons_self _ _)
    rw [List.cons_append, Finisher.callLoop, invoke_noguard f c hg, hc]
    rw [ih f cb post p hg (fun x hx => hpre x (List.mem_cons_of_mem _ hx)) hp]
    simp [Finisher.invokeEvents, List.append_assoc]

theorem TestFlag_SetFlag_self (fl : finisherFlag) (b : finisherFlagBit) :
    (fl.SetFlag b).TestFlag b = true := by
  cases b <;> rfl

theorem TestFlag_SetFlag_sess_chat (fl : finisherFlag) :
    (fl.SetFlag .CIsSessionTransactionError).TestFlag
      .CIsChatTransactionError = fl.TestFlag .CIsChatTransactionError := rfl

theorem TestFlag_SetFlag_chat_sess (fl : finisherFlag) :
    (fl.SetFlag .CIsChatTransactionError).TestFlag
      .CIsSessionTransactionError = fl.TestFlag .CIsSessionTransactionError :=
  rfl

/-- Session transaction requested and failing: `trFinish` records the error
under `CIsSessionTransactionError` and stops, never reaching the chat
completor. -/
theorem trFinish_sessFail (sess chat : γ → Option ε) (f : Finisher γ α ε π)
    (err : ε) (hA : f.Flags.TestFlag .CFinishSessionTransaction = true)
    (hs : sess f.originalCtx = some err) :
    f.trFinish sess chat =
      ({ f with Err := some err,
                Flags := f.Flags.SetFlag .CIsSessionTransactionError },
       [.trSession f.originalCtx]) := by
  rw [Finisher.trFinish, if_pos hA, hs]

/-- Session transaction either not requested or succeeding: `trFinish`
behaves as its chat half, preceded by the session completor event when
the session stage ran. -/
theorem trFinish_sessOk (sess chat : γ → Option ε) (f : Finisher γ α ε π)
    (h : f.Flags.TestFlag .CFinishSessionTransaction = false ∨
         sess f.originalCtx = none) :
    (f.trFinish sess chat).1 = (f.trChatPart chat).1 ∧
    ((f.trFinish sess chat).2 = (f.trChatPart chat).2 ∨
     (f.trFinish sess chat).2 =
       .trSession f.originalCtx :: (f.trChatPart chat).2) := by
  rw [Finisher.trFinish]
  rcases h with h | h
  · rw [if_neg (by simp [h])]
    exact ⟨rfl, Or.inl rfl⟩
  · cases hA : f.Flags.TestFlag .CFinishSessionTransaction with
    | false => rw [if_neg (by simp)]; exact ⟨rfl, Or.inl rfl⟩
    | true => rw [if_pos rfl, h]; exact ⟨rfl, Or.inr rfl⟩

/-- Chat transaction requested and failing. -/
theorem trChatPart_fail (chat : γ → Option ε) (f : Finisher γ α ε π)
    (err : ε) (hB : f.Flags.TestFlag .CFinishChatTransaction = true)
    (hc : chat f.originalCtx = some err) :
    f.trChatPart chat =
      ({ f with Err := some err,
                Flags := f.Flags.SetFlag .CIsChatTransactionError },
       [.trChat f.originalCtx]) := by
  rw [Finisher.trChatPart, if_pos hB, hc]

/-- Every field of the struct except `Err` and `Flags` survives
`trFinish`, and its trace is made of completor events carrying
`originalCtx`. -/
theorem trFinish_spec (sess chat : γ → Option ε) (f : Finisher γ α ε π) :
    (f.trFinish sess chat).1.originalCtx = f.originalCtx ∧
    (f.trFinish sess chat).1.passCallbacksCtx = f.passCallbacksCtx ∧
    (f.trFinish sess chat).1.sentMsg = f.sentMsg ∧
    (f.trFinish sess chat).1.sentErr = f.sentErr ∧
    (f.trFinish sess chat).1.callbacks = f.callbacks ∧
    (f.trFinish sess chat).1.RecoveredPanics = f.RecoveredPanics ∧
    ∀ ev ∈ (f.trFinish sess chat).2,
      ev.isTr = true ∧ ev.ctxOf = f.originalCtx := by
  rw [Finisher.trFinish, Finisher.trChatPart]
  cases hA : f.Flags.TestFlag .CFinishSessionTransaction with
  | true =>
    rw [if_pos rfl]
    cases hs : sess f.originalCtx with
    | some err => simp [Event.isTr, Event.ctxOf]
    | none =>
      cases hB : f.Flags.TestFlag .CFinishChatTransaction with
      | true =>
        rw [if_pos rfl]
        cases hc : chat f.originalCtx <;> simp [Event.isTr, Event.ctxOf]
      | false => rw [if_neg (by simp)]; simp [Event.isTr, Event.ctxOf]
  | false =>
    rw [if_neg (by simp)]
    cases hB : f.Flags.TestFlag .CFinishChatTransaction with
    | true =>
      rw [if_pos rfl]
      cases hc : chat f.originalCtx <;> simp [Event.isTr, Event.ctxOf]
    | false => rw [if_neg (by simp)]; simp

/-- Unfolding `Call` when the callback loop finishes without an escaping
panic. -/
theorem Call_noescape (sess chat : γ → Option ε) (f : Finisher γ α ε π)
    (h : (f.callLoop f.callbacks).escaped = none) :
    f.Call sess chat =
      ⟨((f.callLoop f.callbacks).fin.trFinish sess chat).1,
       (f.callLoop f.callbacks).trace ++
         ((f.callLoop f.callbacks).fin.trFinish sess chat).2,
       none⟩ := by
  rw [Finisher.Call, h]

/-- Unfolding `Call` when a panic escapes the callback loop: `trFinish`
never runs. -/
theorem Call_escape (sess chat : γ → Option ε) (f : Finisher γ α ε π)
    (p : π) (h : (f.callLoop f.callbacks).escaped = some p) :
    f.Call sess chat =
      ⟨(f.callLoop f.callbacks).fin, (f.callLoop f.callbacks).trace,
       some p⟩ := by
  rw [Finisher.Call, h]

theorem invokeEvent_sentMsg (f : Finisher γ α ε π) (cb : Callback γ α ε π)
    (m : α) (hm : f.sentMsg = some m) :
    f.invokeEvent cb = [.cbMsg cb f.passCallbacksCtx m] := by
  rw [Finisher.invokeEvent, hm]

theorem invokeEvent_sentErr (f : Finisher γ α ε π) (cb : Callback γ α ε π)
    (e : ε) (hm : f.sentMsg = none) (he : f.sentErr = some e) :
    f.invokeEvent cb = [.cbErr cb f.passCallbacksCtx e] := by
  rw [Finisher.invokeEvent, hm, he]

/-- Every event a callback invocation produces is a callback event on the
pass-to-callbacks context, tagged with the invoked callback. -/
theorem invokeEvent_mem (f : Finisher γ α ε π) (cb : Callback γ α ε π)
    (ev : Event γ α ε π) (h : ev ∈ f.invokeEvent cb) :
    ev.isTr = false ∧ ev.ctxOf = f.passCallbacksCtx ∧ ev.cbOf = some cb := by
  cases hm : f.sentMsg with
  | some m =>
    rw [invokeEvent_sentMsg f cb m hm] at h
    simp only [List.mem_singleton] at h
    subst h
    exact ⟨rfl, rfl, rfl⟩
  | none =>
    cases he : f.sentErr with
    | some e =>
      rw [invokeEvent_sentErr f cb e hm he] at h
      simp only [List.mem_singleton] at h
      subst h
      exact ⟨rfl, rfl, rfl⟩
    | none =>
      rw [Finisher.invokeEvent, hm, he] at h
      simp at h

theorem invokeEvents_mem (f : Finisher γ α ε π) :
    ∀ (cbs : List (Callback γ α ε π)) (ev : Event γ α ε π),
      ev ∈ f.invokeEvents cbs → ∃ cb ∈ cbs, ev ∈ f.invokeEvent cb := by
  intro cbs
  induction cbs with
  | nil => intro ev h; simp [Finisher.invokeEvents] at h
  | cons cb rest ih =>
    intro ev h
    rw [Finisher.invokeEvents] at h
    rcases List.mem_append.1 h with h | h
    · exact ⟨cb, List.mem_cons_self _ _, h⟩
    · obtain ⟨cb', hcb', hev'⟩ := ih ev h
      exact ⟨cb', List.mem_cons_of_mem _ hcb', hev'⟩

theorem outcome_of_cbPanic (f : Finisher γ α ε π) (cb : Callback γ α ε π)
    (p : π) (hp : f.cbPanic cb = some p) :
    f.sentMsg.isSome = true ∨ f.sentErr.isSome = true := by
  cases hm : f.sentMsg with
  | some m => exact Or.inl rfl
  | none =>
    cases he : f.sentErr with
    | some e => exact Or.inr rfl
    | none => rw [Finisher.cbPanic, hm, he] at hp; exact absurd hp (by simp)

/-- With a populated outcome, one invocation contributes exactly its own
callback to the trace. -/
theorem invokeEvent_cbOf (f : Finisher γ α ε π) (cb : Callback γ α ε π)
    (hout : f.sentMsg.isSome = true ∨ f.sentErr.isSome = true) :
    (f.invokeEvent cb).filterMap Event.cbOf = [cb] := by
  cases hm : f.sentMsg with
  | some m => rw [invokeEvent_sentMsg f cb m hm]; rfl
  | none =>
    rcases hout with h | h
    · rw [hm] at h; simp at h
    · obtain ⟨e, he⟩ := Option.isSome_iff_exists.1 h
      rw [invokeEvent_sentErr f cb e hm he]; rfl

theorem invokeEvents_cbOf (f : Finisher γ α ε π)
    (hout : f.sentMsg.isSome = true ∨ f.sentErr.isSome = true) :
    ∀ cbs, (f.invokeEvents cbs).filterMap Event.cbOf = cbs := by
  intro cbs
  induction cbs with
  | nil => rfl
  | cons cb rest ih =>
    rw [Finisher.invokeEvents, List.filterMap_append,
      invokeEvent_cbOf f cb hout, ih]
    rfl

theorem cbOf_none_of_isTr (ev : Event γ α ε π) (h : ev.isTr = true) :
    ev.cbOf = none := by
  cases ev <;> simp [Event.isTr] at h ⊢ <;> rfl

/-- Every event in a run's trace is either a callback event of one of the
saved callbacks or a completor event on the original context. -/
theorem Call_trace_split (sess chat : γ → Option ε) (f : Finisher γ α ε π) :
    ∀ ev ∈ (f.Call sess chat).trace,
      (∃ cb ∈ f.callbacks, ev ∈ f.invokeEvent cb) ∨
      (ev.isTr = true ∧ ev.ctxOf = f.originalCtx) := by
  obtain ⟨⟨l, hfin⟩, htr⟩ := callLoop_spec f.callbacks f
  cases hesc : (f.callLoop f.callbacks).escaped with
  | some p =>
    rw [Call_escape sess chat f p hesc]
    intro ev hev
    exact Or.inl (htr ev hev)
  | none =>
    rw [Call_noescape sess chat f hesc, hfin]
    intro ev hev
    rcases List.mem_append.1 hev with h | h
    · exact Or.inl (htr ev h)
    · obtain ⟨-, -, -, -, -, -, hevs⟩ :=
        trFinish_spec sess chat { f with RecoveredPanics := l }
      exact Or.inr (hevs ev h)

/-! ### The claims -/

/-- C1: the claim says `Call` on the engine returned by `MakeFinisher`
applied to a callback list invokes every callback of that list in order.
Evaluating the code at a one-callback list shows the constructor drops
its `cbs` argument (the struct literal never assigns `callbacks`), so the
engine it returns holds no callbacks and `Call` invokes none: the run's
trace is empty. -/
theorem C1_constructor_drops_callbacks :
    (MakeFinisher ⟨false, false, false, false, false⟩
        [⟨fun _ _ => none, fun _ _ => none⟩] (0 : Nat) 1 :
        Finisher Nat Nat Nat Nat).callbacks = [] ∧
    (((MakeFinisher ⟨false, false, false, false, false⟩
        [⟨fun _ _ => none, fun _ _ => none⟩] (0 : Nat) 1 :
        Finisher Nat Nat Nat Nat).MakeSuccess (some 7)).Call
        (fun _ => none) (fun _ => none)).trace = [] :=
  ⟨rfl, rfl⟩

/-- C7 counterexample: marking success with a non-nil value and then
marking failure with a nil reason (`MakeError nil` is a legal call, the
error argument being nilable) leaves NEITHER outcome field populated —
not "exactly one", as the claim states for every pair of mutator calls. -/
theorem C7_counterexample_nil_reason :
    ((((MakeFinisher ⟨false, false, false, false, false⟩ [] (0 : Nat) 0 :
        Finisher Nat Nat Nat Nat).MakeSuccess (some 1)).MakeError
        none).sentMsg = none ∧
     (((MakeFinisher ⟨false, false, false, false, false⟩ [] (0 : Nat) 0 :
        Finisher Nat Nat Nat Nat).MakeSuccess (some 1)).MakeError
        none).sentErr = none) :=
  ⟨rfl, rfl⟩

/-- C7 (amended): for every engine and pair of outcome mutator calls whose
SECOND call carries a non-nil payload, exactly the field of the last
mutator is populated and the field of the other kind is cleared. -/
theorem C7_last_mutator_wins (f : Finisher γ α ε π) (mo : Option α)
    (eo : Option ε) (m : α) (e : ε) :
    ((f.MakeSuccess mo).MakeError (some e)).sentErr = some e ∧
    ((f.MakeSuccess mo).MakeError (some e)).sentMsg = none ∧
    ((f.MakeError eo).MakeSuccess (some m)).sentMsg = some m ∧
    ((f.MakeError eo).MakeSuccess (some m)).sentErr = none :=
  ⟨rfl, rfl, rfl, rfl⟩

/-- C2: with `CFinishSessionTransaction` set and the session completor
failing (and the run not aborted by an unguarded callback panic), the
chat completor is never invoked, `CIsSessionTransactionError` is set,
`TrSessionError` returns the session error and `TrChatError` returns
nil. The engine is assumed not to start with the engine-internal
`CIsChatTransactionError` flag already set. -/
theorem C2_stageA_failure (sess chat : γ → Option ε) (f : Finisher γ α ε π)
    (err : ε)
    (hA : f.Flags.TestFlag .CFinishSessionTransaction = true)
    (hs : sess f.originalCtx = some err)
    (hBflag : f.Flags.TestFlag .CIsChatTransactionError = false)
    (hesc : (f.Call sess chat).escaped = none) :
    (∀ c, Event.trChat c ∉ (f.Call sess chat).trace) ∧
    (f.Call sess chat).fin.Flags.TestFlag .CIsSessionTransactionError =
      true ∧
    (f.Call sess chat).fin.TrSessionError = some err ∧
    (f.Call sess chat).fin.TrChatError = none := by
  obtain ⟨⟨l, hfin⟩, htr⟩ := callLoop_spec f.callbacks f
  cases hle : (f.callLoop f.callbacks).escaped with
  | some p =>
    rw [Call_escape sess chat f p hle] at hesc
    exact absurd hesc (by simp)
  | none =>
    have hA' : (Finisher.Flags { f with RecoveredPanics := l }).TestFlag
        .CFinishSessionTransaction = true := hA
    have hs' : sess (Finisher.originalCtx
        { f with RecoveredPanics := l }) = some err := hs
    rw [Call_noescape sess chat f hle, hfin,
      trFinish_sessFail sess chat { f with RecoveredPanics := l } err hA' hs']
    refine ⟨?_, ?_, ?_, ?_⟩
    · intro c hc
      rcases List.mem_append.1 hc with h | h
      · obtain ⟨cb, -, hev⟩ := htr _ h
        obtain ⟨hf, -, -⟩ := invokeEvent_mem f cb _ hev
        simp [Event.isTr] at hf
      · simp at h
    · exact TestFlag_SetFlag_self
        (Finisher.Flags { f with RecoveredPanics := l })
        .CIsSessionTransactionError
    · simp [Finisher.TrSessionError, TestFlag_SetFlag_self]
    · simp [Finisher.TrChatError, TestFlag_SetFlag_sess_chat, hBflag]

/-- C3: with the session stage absent or succeeding and
`CFinishChatTransaction` set and its completor failing (and the run not
aborted by an unguarded callback panic), `CIsChatTransactionError` is
set, `TrChatError` returns the chat error and `TrSessionError` returns
nil. The engine is assumed not to start with the engine-internal
`CIsSessionTransactionError` flag already set. -/
theorem C3_stageB_failure (sess chat : γ → Option ε) (f : Finisher γ α ε π)
    (err : ε)
    (hA : f.Flags.TestFlag .CFinishSessionTransaction = false ∨
          sess f.originalCtx = none)
    (hB : f.Flags.TestFlag .CFinishChatTransaction = true)
    (hc : chat f.originalCtx = some err)
    (hAflag : f.Flags.TestFlag .CIsSessionTransactionError = false)
    (hesc : (f.Call sess chat).escaped = none) :
    (f.Call sess chat).fin.Flags.TestFlag .CIsChatTransactionError = true ∧
    (f.Call sess chat).fin.TrChatError = some err ∧
    (f.Call sess chat).fin.TrSessionError = none := by
  obtain ⟨⟨l, hfin⟩, -⟩ := callLoop_spec f.callbacks f
  cases hle : (f.callLoop f.callbacks).escaped with
  | some p =>
    rw [Call_escape sess chat f p hle] at hesc
    exact absurd hesc (by simp)
  | none =>
    have hA' : (Finisher.Flags { f with RecoveredPanics := l }).TestFlag
        .CFinishSessionTransaction = false ∨
        sess (Finisher.originalCtx { f with RecoveredPanics := l }) =
          none := hA
    have hB' : (Finisher.Flags { f with RecoveredPanics := l }).TestFlag
        .CFinishChatTransaction = true := hB
    have hc' : chat (Finisher.originalCtx
        { f with RecoveredPanics := l }) = some err := hc
    have h1 := (trFinish_sessOk sess chat
      { f with RecoveredPanics := l } hA').1
    rw [Call_noescape sess chat f hle, hfin, h1,
      trChatPart_fail chat { f with RecoveredPanics := l } err hB' hc']
    refine ⟨?_, ?_, ?_⟩
    · exact TestFlag_SetFlag_self
        (Finisher.Flags { f with RecoveredPanics := l })
        .CIsChatTransactionError
    · simp [Finisher.TrChatError, TestFlag_SetFlag_self]
    · simp [Finisher.TrSessionError, TestFlag_SetFlag_chat_sess, hAflag]

/-- C9: when both outcome fields are nil (outcome never marked, or marked
success with a nil payload), every per-callback invocation is a no-op
calling neither function shape, and `Call` degenerates to exactly the
requested cleanup (`trFinish`), which still runs. -/
theorem C9_nil_outcome_skips_callbacks (sess chat : γ → Option ε)
    (f : Finisher γ α ε π) (hm : f.sentMsg = none)
    (he : f.sentErr = none) :
    (∀ cb, f.invoke cb = ⟨f, [], none⟩) ∧
    f.Call sess chat =
      ⟨(f.trFinish sess chat).1, (f.trFinish sess chat).2, none⟩ := by
  have hcb : ∀ cb, f.cbPanic cb = none := by
    intro cb; rw [Finisher.cbPanic, hm, he]
  have hev : ∀ cb, f.invokeEvent cb = ([] : List (Event γ α ε π)) := by
    intro cb; rw [Finisher.invokeEvent, hm, he]
  have hevs : ∀ cbs, f.invokeEvents cbs = [] := by
    intro cbs
    induction cbs with
    | nil => rfl
    | cons cb rest ih => rw [Finisher.invokeEvents, hev, ih]; rfl
  constructor
  · intro cb
    rw [invoke_eq, hcb, hev]
    cases hg : f.Flags.TestFlag .CEnablePanicGuard <;> simp [hg]
  · have hloop := callLoop_clean f.callbacks f (fun cb _ => hcb cb)
    rw [Finisher.Call, hloop]
    simp [hevs]

/-- C4: with `CEnablePanicGuard` set, a populated outcome and a fresh
crash accumulator, no panic escapes the run, every saved callback is
invoked (the trace lists them all, in list order — in particular all
callbacks after any panicking one), and afterwards `RecoveredPanics`
holds exactly the panic payload of each panicking callback, in order. -/
theorem C4_panic_guard (sess chat : γ → Option ε) (f : Finisher γ α ε π)
    (hg : f.Flags.TestFlag .CEnablePanicGuard = true)
    (hout : f.sentMsg.isSome = true ∨ f.sentErr.isSome = true)
    (hRP : f.RecoveredPanics = []) :
    (f.Call sess chat).escaped = none ∧
    (f.Call sess chat).trace.filterMap Event.cbOf = f.callbacks ∧
    (f.Call sess chat).fin.RecoveredPanics =
      f.callbacks.filterMap f.cbPanic := by
  have hloop := callLoop_guard f.callbacks f hg
  have hle : (f.callLoop f.callbacks).escaped = none := by rw [hloop]
  have hfin : (f.callLoop f.callbacks).fin =
      { f with RecoveredPanics :=
          f.RecoveredPanics ++ f.callbacks.filterMap f.cbPanic } := by
    rw [hloop]
  have htrace : (f.callLoop f.callbacks).trace =
      f.invokeEvents f.callbacks := by rw [hloop]
  obtain ⟨-, -, -, -, -, hRPfin, hevs⟩ := trFinish_spec sess chat
    { f with RecoveredPanics :=
        f.RecoveredPanics ++ f.callbacks.filterMap f.cbPanic }
  rw [Call_noescape sess chat f hle, hfin, htrace]
  refine ⟨rfl, ?_, ?_⟩
  · show (f.invokeEvents f.callbacks ++
        (Finisher.trFinish sess chat
          { f with RecoveredPanics :=
              f.RecoveredPanics ++
                f.callbacks.filterMap f.cbPanic }).2).filterMap
        Event.cbOf = f.callbacks
    rw [List.filterMap_append, invokeEvents_cbOf f hout,
      List.filterMap_eq_nil_iff.mpr
        (fun ev hev => cbOf_none_of_isTr ev (hevs ev hev).1),
      List.append_nil]
  · show (Finisher.trFinish sess chat
        { f with RecoveredPanics :=
            f.RecoveredPanics ++
              f.callbacks.filterMap f.cbPanic }).1.RecoveredPanics =
      f.callbacks.filterMap f.cbPanic
    rw [hRPfin]
    simp [hRP]

/-- C5: without `CEnablePanicGuard`, the first panicking callback makes
its panic escape `Call` at once: the trace shows exactly the callbacks up
to and including it (none after it), contains no completor event (neither
cleanup stage runs), and the struct comes back untouched. -/
theorem C5_unguarded_panic (sess chat : γ → Option ε)
    (f : Finisher γ α ε π) (pre post : List (Callback γ α ε π))
    (cb : Callback γ α ε π) (p : π)
    (hg : f.Flags.TestFlag .CEnablePanicGuard = false)
    (hcbs : f.callbacks = pre ++ cb :: post)
    (hpre : ∀ c ∈ pre, f.cbPanic c = none)
    (hp : f.cbPanic cb = some p) :
    (f.Call sess chat).escaped = some p ∧
    (f.Call sess chat).fin = f ∧
    (f.Call sess chat).trace.filterMap Event.cbOf = pre ++ [cb] ∧
    ∀ ev ∈ (f.Call sess chat).trace, ev.isTr = false := by
  have hloop := callLoop_escape pre f cb post p hg hpre hp
  have hle : (f.callLoop f.callbacks).escaped = some p := by
    rw [hcbs, hloop]
  have hfin : (f.callLoop f.callbacks).fin = f := by rw [hcbs, hloop]
  have htrace : (f.callLoop f.callbacks).trace =
      f.invokeEvents pre ++ f.invokeEvent cb := by rw [hcbs, hloop]
  have hout := outcome_of_cbPanic f cb p hp
  rw [Call_escape sess chat f p hle, hfin, htrace]
  refine ⟨rfl, rfl, ?_, ?_⟩
  · show (f.invokeEvents pre ++ f.invokeEvent cb).filterMap Event.cbOf =
      pre ++ [cb]
    rw [List.filterMap_append, invokeEvents_cbOf f hout,
      invokeEvent_cbOf f cb hout]
  · intro ev hev
    have hev' : ev ∈ f.invokeEvents pre ++ f.invokeEvent cb := hev
    rcases List.mem_append.1 hev' with h | h
    · obtain ⟨c, -, hc⟩ := invokeEvents_mem f pre ev h
      exact (invokeEvent_mem f c ev hc).1
    · exact (invokeEvent_mem f cb ev h).1

/-- C6: on an engine marked success with value `m`, every callback event
of the run passes the active context and `m` (in particular no callback
ever receives a failure reason); symmetrically for an engine marked
failure with reason `e`. -/
theorem C6_outcome_dispatch (sess chat : γ → Option ε)
    (f : Finisher γ α ε π) (m : α) (e : ε) :
    (∀ ev ∈ ((f.MakeSuccess (some m)).Call sess chat).trace,
        ev.isTr = false →
        ∃ cb, ev = .cbMsg cb f.passCallbacksCtx m) ∧
    (∀ ev ∈ ((f.MakeError (some e)).Call sess chat).trace,
        ev.isTr = false →
        ∃ cb, ev = .cbErr cb f.passCallbacksCtx e) := by
  constructor
  · intro ev hev hnt
    rcases Call_trace_split sess chat (f.MakeSuccess (some m)) ev hev with
      ⟨cb, -, hc⟩ | ⟨ht, -⟩
    · rw [invokeEvent_sentMsg (f.MakeSuccess (some m)) cb m rfl] at hc
      simp only [List.mem_singleton] at hc
      exact ⟨cb, hc⟩
    · rw [ht] at hnt; simp at hnt
  · intro ev hev hnt
    rcases Call_trace_split sess chat (f.MakeError (some e)) ev hev with
      ⟨cb, -, hc⟩ | ⟨ht, -⟩
    · rw [invokeEvent_sentErr (f.MakeError (some e)) cb e rfl rfl] at hc
      simp only [List.mem_singleton] at hc
      exact ⟨cb, hc⟩
    · rw [ht] at hnt; simp at hnt

/-- C8: every completor event of a run carries the original context and
every callback event carries the active (pass-to-callbacks) context —
`Call` never hands the active context to a cleanup stage nor the original
context to a callback. -/
theorem C8_context_roles (sess chat : γ → Option ε)
    (f : Finisher γ α ε π) :
    ∀ ev ∈ (f.Call sess chat).trace,
      (ev.isTr = true → ev.ctxOf = f.originalCtx) ∧
      (ev.isTr = false → ev.ctxOf = f.passCallbacksCtx) := by
  intro ev hev
  rcases Call_trace_split sess chat f ev hev with
    ⟨cb, -, hc⟩ | ⟨ht, hctx⟩
  · obtain ⟨hf, hctx2, -⟩ := invokeEvent_mem f cb ev hc
    refine ⟨fun h => ?_, fun _ => hctx2⟩
    rw [hf] at h
    simp at h
  · refine ⟨fun _ => hctx, fun h => ?_⟩
    rw [ht] at h
    simp at h

/-- C10: a single `Call` leaves the outcome fields, both context
references and the callback list exactly as they were, whatever the
flags, the callbacks and the completors do. -/
theorem C10_call_frame (sess chat : γ → Option ε) (f : Finisher γ α ε π) :
    (f.Call sess chat).fin.sentMsg = f.sentMsg ∧
    (f.Call sess chat).fin.sentErr = f.sentErr ∧
    (f.Call sess chat).fin.originalCtx = f.originalCtx ∧
    (f.Call sess chat).fin.passCallbacksCtx = f.passCallbacksCtx ∧
    (f.Call sess chat).fin.callbacks = f.callbacks := by
  obtain ⟨⟨l, hfin⟩, -⟩ := callLoop_spec f.callbacks f
  cases hesc : (f.callLoop f.callbacks).escaped with
  | some p =>
    rw [Call_escape sess chat f p hesc, hfin]
    exact ⟨rfl, rfl, rfl, rfl, rfl⟩
  | none =>
    rw [Call_noescape sess chat f hesc, hfin]
    obtain ⟨h1, h2, h3, h4, h5, -, -⟩ :=
      trFinish_spec sess chat { f with RecoveredPanics := l }
    exact ⟨h3, h4, h1, h2, h5⟩

/-- Witness for C2 at a concrete engine: session stage requested, session
completor failing with `42`, no escaping panic. -/
theorem C2_stageA_failure_witness :
    fC2w.Flags.TestFlag .CFinishSessionTransaction = true ∧
    trFail42 fC2w.originalCtx = some 42 ∧
    fC2w.Flags.TestFlag .CIsChatTransactionError = false ∧
    (fC2w.Call trFail42 trNone).escaped = none ∧
    ((∀ c, Event.trChat c ∉ (fC2w.Call trFail42 trNone).trace) ∧
     (fC2w.Call trFail42 trNone).fin.Flags.TestFlag
       .CIsSessionTransactionError = true ∧
     (fC2w.Call trFail42 trNone).fin.TrSessionError = some 42 ∧
     (fC2w.Call trFail42 trNone).fin.TrChatError = none) :=
  ⟨rfl, rfl, rfl, rfl,
   C2_stageA_failure trFail42 trNone fC2w 42 rfl rfl rfl rfl⟩

/-- Witness for C3 at a concrete engine: session stage not requested,
chat stage requested and failing with `43`, no escaping panic. -/
theorem C3_stageB_failure_witness :
    (fC3w.Flags.TestFlag .CFinishSessionTransaction = false ∨
      trNone fC3w.originalCtx = none) ∧
    fC3w.Flags.TestFlag .CFinishChatTransaction = true ∧
    trFail43 fC3w.originalCtx = some 43 ∧
    fC3w.Flags.TestFlag .CIsSessionTransactionError = false ∧
    (fC3w.Call trNone trFail43).escaped = none ∧
    ((fC3w.Call trNone trFail43).fin.Flags.TestFlag
       .CIsChatTransactionError = true ∧
     (fC3w.Call trNone trFail43).fin.TrChatError = some 43 ∧
     (fC3w.Call trNone trFail43).fin.TrSessionError = none) :=
  ⟨Or.inl rfl, rfl, rfl, rfl, rfl,
   C3_stageB_failure trNone trFail43 fC3w 43 (Or.inl rfl) rfl rfl rfl rfl⟩

/-- Witness for C4 at a concrete engine: guard on, three callbacks with
the middle one panicking with `99`. -/
theorem C4_panic_guard_witness :
    fC4w.Flags.TestFlag .CEnablePanicGuard = true ∧
    (fC4w.sentMsg.isSome = true ∨ fC4w.sentErr.isSome = true) ∧
    fC4w.RecoveredPanics = [] ∧
    ((fC4w.Call trNone trNone).escaped = none ∧
     (fC4w.Call trNone trNone).trace.filterMap Event.cbOf =
       fC4w.callbacks ∧
     (fC4w.Call trNone trNone).fin.RecoveredPanics =
       fC4w.callbacks.filterMap fC4w.cbPanic) :=
  ⟨rfl, Or.inl rfl, rfl,
   C4_panic_guard trNone trNone fC4w rfl (Or.inl rfl) rfl⟩

/-- Witness for C5 at a concrete engine: guard off, three callbacks with
the middle one panicking with `99`. -/
theorem C5_unguarded_panic_witness :
    fC5w.Flags.TestFlag .CEnablePanicGuard = false ∧
    fC5w.callbacks = [cbNone] ++ cbBoom :: [cbNone] ∧
    (∀ c ∈ ([cbNone] : List (Callback Nat Nat Nat Nat)),
      fC5w.cbPanic c = none) ∧
    fC5w.cbPanic cbBoom = some 99 ∧
    ((fC5w.Call trNone trNone).escaped = some 99 ∧
     (fC5w.Call trNone trNone).fin = fC5w ∧
     (fC5w.Call trNone trNone).trace.filterMap Event.cbOf =
       [cbNone] ++ [cbBoom] ∧
     ∀ ev ∈ (fC5w.Call trNone trNone).trace, ev.isTr = false) := by
  have hpre : ∀ c ∈ ([cbNone] : List (Callback Nat Nat Nat Nat)),
      fC5w.cbPanic c = none := by
    intro c hc
    rw [List.mem_singleton] at hc
    subst hc
    rfl
  exact ⟨rfl, rfl, hpre, rfl,
    C5_unguarded_panic trNone trNone fC5w [cbNone] [cbNone] cbBoom 99
      rfl rfl hpre rfl⟩

/-- Witness for C6 at a concrete engine marked success with value `5`:
the single callback event passes the active context `11` and the value
`5`. -/
theorem C6_outcome_dispatch_witness :
    ((Event.cbMsg cbNone 11 5 : Event Nat Nat Nat Nat) ∈
      ((fC6w.MakeSuccess (some 5)).Call trNone trNone).trace) ∧
    (Event.cbMsg cbNone 11 5 : Event Nat Nat Nat Nat).isTr = false ∧
    ∃ cb, (Event.cbMsg cbNone 11 5 : Event Nat Nat Nat Nat) =
      Event.cbMsg cb fC6w.passCallbacksCtx 5 := by
  have hmem : (Event.cbMsg cbNone 11 5 : Event Nat Nat Nat Nat) ∈
      ((fC6w.MakeSuccess (some 5)).Call trNone trNone).trace := by
    show (Event.cbMsg cbNone 11 5 : Event Nat Nat Nat Nat) ∈
      [Event.cbMsg cbNone 11 5]
    exact List.mem_singleton.mpr rfl
  exact ⟨hmem, rfl,
    (C6_outcome_dispatch trNone trNone fC6w 5 7).1 _ hmem rfl⟩

/-- Witness for C8 at a concrete engine: the single callback event of the
run carries the active context. -/
theorem C8_context_roles_witness :
    ((Event.cbMsg cbNone 11 5 : Event Nat Nat Nat Nat) ∈
      (fC8w.Call trNone trNone).trace) ∧
    (((Event.cbMsg cbNone 11 5 : Event Nat Nat Nat Nat).isTr = true →
        (Event.cbMsg cbNone 11 5 : Event Nat Nat Nat Nat).ctxOf =
          fC8w.originalCtx) ∧
     ((Event.cbMsg cbNone 11 5 : Event Nat Nat Nat Nat).isTr = false →
        (Event.cbMsg cbNone 11 5 : Event Nat Nat Nat Nat).ctxOf =
          fC8w.passCallbacksCtx)) := by
  have hmem : (Event.cbMsg cbNone 11 5 : Event Nat Nat Nat Nat) ∈
      (fC8w.Call trNone trNone).trace := by
    show (Event.cbMsg cbNone 11 5 : Event Nat Nat Nat Nat) ∈
      [Event.cbMsg cbNone 11 5]
    exact List.mem_singleton.mpr rfl
  exact ⟨hmem, C8_context_roles trNone trNone fC8w _ hmem⟩

/-- Witness for C9 at a concrete engine with both outcome fields nil and
the session stage requested. -/
theorem C9_nil_outcome_witness :
    fC9w.sentMsg = none ∧ fC9w.sentErr = none ∧
    ((∀ cb, fC9w.invoke cb = ⟨fC9w, [], none⟩) ∧
     fC9w.Call trNone trNone =
       ⟨(fC9w.trFinish trNone trNone).1,
        (fC9w.trFinish trNone trNone).2, none⟩) :=
  ⟨rfl, rfl, C9_nil_outcome_skips_callbacks trNone trNone fC9w rfl rfl⟩

end Devola
